import Mathlib

/-
Verification of the gdbstub RSP protocol engine against its specification.

The definitions below are a shallow embedding of the Rust sources under
`src/`: the handler core (`src/gdbstub_impl/ext/base.rs`,
`src/gdbstub_impl/ext/breakpoints.rs`), the target-extension contracts
(`src/target/ext/base/mod.rs`, `src/target/ext/breakpoints.rs`), and the
session data model. Parts of the crate that are referenced by those files
but whose sources are not available (the response writer's number
rendering, the main packet loop's response emission, the error-rendering
of the outer loop) are modelled from the specification and carry a
doc comment saying so.
-/

namespace Gdbstub

/-- Thread identifier (`Tid` in the crate): a positive integer. Modelled as `Nat`. -/
abbrev Tid := Nat

/-- The synthetic PID used whenever the target does not model processes (`FAKE_PID`, value 1). -/
def FAKE_PID : Tid := 1

/-- The reserved TID for single-threaded targets (`SINGLE_THREAD_TID`, value 1). -/
def SINGLE_THREAD_TID : Tid := 1

/-- Kind of watchpoint, from `src/target/ext/breakpoints.rs` (`WatchKind`). -/
inductive WatchKind
  | write
  | read
  | readWrite
deriving DecidableEq, Repr

/-- Thread-id selector appearing in packets (`IdKind`): absent ("any"),
`-1` ("all"), or a specific TID. -/
inductive IdKind
  | any
  | all
  | withID (tid : Tid)
deriving DecidableEq, Repr

/-- A thread-id selector that is never "any" (`SpecificIdKind`). -/
inductive SpecificIdKind
  | all
  | withID (tid : Tid)
deriving DecidableEq, Repr

/-- How the target should be resumed (`ResumeAction` as used by
`src/gdbstub_impl/ext/base.rs`). -/
inductive ResumeAction
  | cont
  | step
  | contWithSignal (sig : Nat)
  | stepWithSignal (sig : Nat)
deriving DecidableEq, Repr

/-- Why a thread stopped (`ThreadStopReason<U>` from
`src/target/ext/base/multithread.rs`), with `U` instantiated to `Nat`. -/
inductive ThreadStopReason
  | doneStep
  | gdbInterrupt
  | halted
  | swBreak (tid : Tid)
  | hwBreak (tid : Tid)
  | watch (tid : Tid) (kind : WatchKind) (addr : Nat)
  | signal (code : Nat)
deriving DecidableEq, Repr

/-- A target-side error (`TargetError<E>` in the crate): either fatal
(carrying the target's own error type, elided here) or a recoverable
errno-style code. -/
inductive TargetError
  | fatal
  | errno (code : Nat)
deriving DecidableEq, Repr

/-- Result of a fallible target operation (`TargetResult<A, Self>`). -/
abbrev TargetResult (A : Type) := Except TargetError A

/-- Packet-parse failure cause (`PacketParseError`), restricted to the
variant the handler core produces. -/
inductive PacketParseError
  | malformedCommand
deriving DecidableEq, Repr

/-- The engine's error taxonomy (`Error<T, C>`), payloads elided. -/
inductive Error
  | packetParse (e : PacketParseError)
  | packetUnexpected
  | targetMismatch
  | targetError
  | nonFatalError (code : Nat)
  | connectionRead
  | connectionWrite
deriving DecidableEq, Repr

/-- Reason a session ended (`DisconnectReason`). -/
inductive DisconnectReason
  | disconnect
  | kill
  | targetHalted
deriving DecidableEq, Repr

/-- Handler outcome for one command (`HandlerStatus`): a response was
already written (`handled`), the main loop should write `OK` (`needsOK`),
or the session ends (`disconnect`). -/
inductive HandlerStatus
  | handled
  | needsOK
  | disconnect (reason : DisconnectReason)
deriving DecidableEq, Repr

/-- Session state owned by the handler core (`GdbStubImpl` fields relevant
to the claims). -/
structure SessionState where
  noAckMode : Bool
  currentMemTid : Tid
  currentResumeTid : SpecificIdKind
deriving DecidableEq, Repr

/-- Hex digit character for a nibble, lowercase (0→'0', 10→'a'). -/
def hexDigitChar (n : Nat) : Char :=
  match n with
  | 0 => '0' | 1 => '1' | 2 => '2' | 3 => '3'
  | 4 => '4' | 5 => '5' | 6 => '6' | 7 => '7'
  | 8 => '8' | 9 => '9' | 10 => 'a' | 11 => 'b'
  | 12 => 'c' | 13 => 'd' | 14 => 'e' | _ => 'f'

/-- Accumulator loop for `hexStr`; the fuel dominates the digit count. -/
def hexStrAux (fuel : Nat) (n : Nat) (acc : List Char) : List Char :=
  match fuel with
  | 0 => acc
  | fuel + 1 =>
    if n = 0 then acc else hexStrAux fuel (n / 16) (hexDigitChar (n % 16) :: acc)

/-- Modelled from the spec: the response writer's `write_num` (the
`ResponseWriter` source is not under `src/`). Spec section 4.3: "Numbers
may be written as big-endian hex with no padding". Lowercase, `0` for zero. -/
def hexStr (n : Nat) : String :=
  if n = 0 then "0" else String.mk (hexStrAux n n [])

/-- Two-digit lowercase hex rendering (used for error codes and thread ids). -/
def hex2 (n : Nat) : String :=
  if n < 16 then "0" ++ hexStr n else hexStr n

/-- Modelled from the spec: the outer loop's rendering of a non-fatal
error as an `E` packet (spec section 7: "NonFatalError(u8) — rendered as
E hex"). -/
def renderNonFatalError (code : Nat) : String :=
  "E" ++ hex2 code

/-- Modelled from the spec: the main loop's response for a `NeedsOK`
handler status (spec section 4.4: commands such as `T` answer `OK`). -/
def renderNeedsOK : String := "OK"

/-- Modelled from the spec: `write_specific_thread_id` (its source is not
under `src/`), following the spec's multiprocess thread-id syntax
`p<pid>.<tid>` with two-digit hex fields (scenario 5: `p01.03`). -/
def threadIdStr (pid tid : Tid) : String :=
  "p" ++ hex2 pid ++ "." ++ hex2 tid

/-- Concatenation of the successive `write_str` outputs of the response
writer for one packet. -/
def concatAll : List String → String
  | [] => ""
  | s :: rest => s ++ concatAll rest

/-- Modelled from the spec: the response writer's `write_hex_buf` (two
lowercase nibbles per input byte). -/
def hexBuf (s : String) : String :=
  concatAll (s.toList.map (fun c => hex2 (c.toNat % 256)))

/-- The interrupt source held by a `GdbInterrupt`
(`GdbInterruptInner` from `src/target/ext/base/mod.rs`): a manual
poll callback or a pinned future. The stateful callback (resp. future) is
modelled as a pure function of the number of invocations so far, paired
with that invocation count; for the future, `true` stands for
`Poll::Ready(())` and `false` for `Poll::Pending`. -/
inductive GdbInterruptInner
  | poll (fn : Nat → Bool) (calls : Nat)
  | future (fn : Nat → Bool) (polls : Nat)

/-- `GdbInterruptManualPoll` from `src/target/ext/base/mod.rs`: a `ready`
latch in front of the interrupt source. -/
structure GdbInterruptManualPoll where
  ready : Bool
  inner : GdbInterruptInner

/-- `GdbInterruptManualPoll::pending` from `src/target/ext/base/mod.rs`:
if `ready` is already set, return `true` without touching the underlying
source; otherwise invoke the poll callback (or poll the future) once,
record the outcome in `ready`, and return it. -/
def pending (s : GdbInterruptManualPoll) : Bool × GdbInterruptManualPoll :=
  if s.ready then (true, s)
  else
    match s.inner with
    | .poll fn calls =>
        let b := fn calls
        (b, { ready := b, inner := .poll fn (calls + 1) })
    | .future fn polls =>
        let b := fn polls
        (b, { ready := b, inner := .future fn (polls + 1) })

/-- The software-breakpoint sub-capability (`SwBreakpoint` trait):
`add`/`remove` take an address and a breakpoint kind. -/
structure SwBreakpointOps where
  add : Nat → Nat → TargetResult Bool
  remove : Nat → Nat → TargetResult Bool

/-- The hardware-breakpoint sub-capability (`HwBreakpoint` trait). -/
structure HwBreakpointOps where
  add : Nat → Nat → TargetResult Bool
  remove : Nat → Nat → TargetResult Bool

/-- The hardware-watchpoint sub-capability (`HwWatchpoint` trait). -/
structure HwWatchpointOps where
  add : Nat → WatchKind → TargetResult Bool
  remove : Nat → WatchKind → TargetResult Bool

/-- The breakpoints capability (`Breakpoints` trait): three optional
sub-capabilities, each absent when the accessor returns `None`. -/
structure BreakpointsOps where
  sw : Option SwBreakpointOps
  hw : Option HwBreakpointOps
  hwWatch : Option HwWatchpointOps

/-- Parsed body of a basic `z`/`Z` packet (`BasicBreakpoint`):
`(type, addr, kind)`. -/
structure BasicBreakpoint where
  type_ : Nat
  addr : Nat
  kind : Nat
deriving DecidableEq, Repr

/-- The two basic breakpoint commands handled by `handle_breakpoints`
(`Breakpoints::z` removes, `Breakpoints::Z` inserts). -/
inductive BreakpointsCmd
  | z (cmd : BasicBreakpoint)
  | Z (cmd : BasicBreakpoint)
deriving DecidableEq, Repr

/-- The `handle_error` adaptor of the handler prelude: a fatal target
error becomes `Error::TargetError`, a recoverable one becomes
`Error::NonFatalError(code)` (spec section 7). -/
def liftTargetError : TargetError → Error
  | .fatal => .targetError
  | .errno c => .nonFatalError c

/-- `handle_breakpoints` from `src/gdbstub_impl/ext/breakpoints.rs`,
restricted to the basic `z`/`Z` commands it matches: select the
sub-capability from the `type` field (0 software, 1 hardware, 2/3/4
watchpoint write/read/read-write), call add (for `Z`) or remove (for
`z`), and translate the result. -/
def handle_breakpoints (bpOps : Option BreakpointsOps) (command : BreakpointsCmd) :
    Except Error HandlerStatus :=
  match bpOps with
  | none => .ok .handled
  | some ops =>
    match command with
    | .Z cmd =>
      let supported : Option (TargetResult Bool) :=
        match cmd.type_ with
        | 0 => ops.sw.map (fun op => op.add cmd.addr cmd.kind)
        | 1 => ops.hw.map (fun op => op.add cmd.addr cmd.kind)
        | 2 => ops.hwWatch.map (fun op => op.add cmd.addr .write)
        | 3 => ops.hwWatch.map (fun op => op.add cmd.addr .read)
        | 4 => ops.hwWatch.map (fun op => op.add cmd.addr .readWrite)
        | _ => none
      match supported with
      | none => .ok .handled
      | some (.error e) => .error (liftTargetError e)
      | some (.ok true) => .ok .needsOK
      | some (.ok false) => .error (.nonFatalError 22)
    | .z cmd =>
      let supported : Option (TargetResult Bool) :=
        match cmd.type_ with
        | 0 => ops.sw.map (fun op => op.remove cmd.addr cmd.kind)
        | 1 => ops.hw.map (fun op => op.remove cmd.addr cmd.kind)
        | 2 => ops.hwWatch.map (fun op => op.remove cmd.addr .write)
        | 3 => ops.hwWatch.map (fun op => op.remove cmd.addr .read)
        | 4 => ops.hwWatch.map (fun op => op.remove cmd.addr .readWrite)
        | _ => none
      match supported with
      | none => .ok .handled
      | some (.error e) => .error (liftTargetError e)
      | some (.ok true) => .ok .needsOK
      | some (.ok false) => .error (.nonFatalError 22)

/-- The sub-capability call result that `handle_breakpoints` selects for a
`Z` (insert) command: `none` when the required sub-capability is absent,
otherwise the outcome of the corresponding `add` operation. -/
def zInsertResult (ops : BreakpointsOps) (c : BasicBreakpoint) : Option (TargetResult Bool) :=
  match c.type_ with
  | 0 => ops.sw.map (fun op => op.add c.addr c.kind)
  | 1 => ops.hw.map (fun op => op.add c.addr c.kind)
  | 2 => ops.hwWatch.map (fun op => op.add c.addr .write)
  | 3 => ops.hwWatch.map (fun op => op.add c.addr .read)
  | 4 => ops.hwWatch.map (fun op => op.add c.addr .readWrite)
  | _ => none

/-- The sub-capability call result that `handle_breakpoints` selects for a
`z` (remove) command. -/
def zRemoveResult (ops : BreakpointsOps) (c : BasicBreakpoint) : Option (TargetResult Bool) :=
  match c.type_ with
  | 0 => ops.sw.map (fun op => op.remove c.addr c.kind)
  | 1 => ops.hw.map (fun op => op.remove c.addr c.kind)
  | 2 => ops.hwWatch.map (fun op => op.remove c.addr .write)
  | 3 => ops.hwWatch.map (fun op => op.remove c.addr .read)
  | 4 => ops.hwWatch.map (fun op => op.remove c.addr .readWrite)
  | _ => none

/-- Presence flags for the extended-mode sub-features consulted by
`qSupported`. -/
structure ExtendedModeCaps where
  aslr : Bool
  env : Bool
  startupShell : Bool
  workingDir : Bool
deriving DecidableEq, Repr

/-- Presence flags for the breakpoint sub-capabilities consulted by
`qSupported`. -/
structure BreakpointsCaps where
  sw : Bool
  hw : Bool
  hwWatch : Bool
  bpAgent : Bool
deriving DecidableEq, Repr

/-- Capability surface of the target as consulted by the `qSupported`
handler arm of `handle_base`. -/
structure TargetCaps where
  extendedMode : Option ExtendedModeCaps
  agent : Bool
  breakpoints : Option BreakpointsCaps
  targetXml : Bool
deriving DecidableEq, Repr

/-- The extended-mode feature flags emitted by the `qSupported` arm
(`src/gdbstub_impl/ext/base.rs`, lines 31-49). -/
def qSupportedExtTokens : Option ExtendedModeCaps → List String
  | none => []
  | some em =>
    (if em.aslr then [";QDisableRandomization+"] else [])
    ++ (if em.env then
          [";QEnvironmentHexEncoded+", ";QEnvironmentUnset+", ";QEnvironmentReset+"]
        else [])
    ++ (if em.startupShell then [";QStartupWithShell+"] else [])
    ++ (if em.workingDir then [";QSetWorkingDir+"] else [])

/-- The breakpoint feature flags emitted by the `qSupported` arm
(`src/gdbstub_impl/ext/base.rs`, lines 55-68). -/
def qSupportedBpTokens : Option BreakpointsCaps → List String
  | none => []
  | some bp =>
    (if bp.sw then [";swbreak+"] else [])
    ++ (if bp.hw || bp.hwWatch then [";hwbreak+"] else [])
    ++ (if bp.bpAgent then
          [";BreakpointCommands+", ";ConditionalBreakpoints+"]
        else [])

/-- The sequence of `write_str`/`write_num` fragments emitted by the
`qSupported` arm of `handle_base` (`src/gdbstub_impl/ext/base.rs`,
lines 19-75), in order. -/
def qSupportedTokens (packetBufferLen : Nat) (t : TargetCaps) : List String :=
  ["PacketSize=", hexStr packetBufferLen,
   ";vContSupported+", ";multiprocess+", ";QStartNoAckMode+"]
  ++ qSupportedExtTokens t.extendedMode
  ++ (if t.agent then [";QAgent+"] else [])
  ++ qSupportedBpTokens t.breakpoints
  ++ (if t.targetXml then [";qXfer:features:read+"] else [])

/-- Whether the target exposes the software-breakpoint sub-capability. -/
def hasSwCap (t : TargetCaps) : Bool :=
  (t.breakpoints.map (fun bp => bp.sw)).getD false

/-- The full `qSupported` response body. -/
def qSupportedResponse (packetBufferLen : Nat) (t : TargetCaps) : String :=
  concatAll (qSupportedTokens packetBufferLen t)

/-- Observable events while processing one command exchange. -/
inductive SessionEvent
  | setNoAckMode
  | emitResponse (s : String)
deriving DecidableEq, Repr

/-- The `Base::QStartNoAckMode` arm of `handle_base`
(`src/gdbstub_impl/ext/base.rs`, lines 76-79): set `no_ack_mode` and ask
the main loop to respond `OK`. -/
def handle_QStartNoAckMode (s : SessionState) : SessionState × HandlerStatus :=
  ({ s with noAckMode := true }, .needsOK)

/-- Modelled from the spec: the main packet loop (its source is not under
`src/`) emits the response after the handler returns; a `needsOK` status
becomes the `OK` packet. The full exchange for `QStartNoAckMode` thus
produces the handler's state change followed by the response emission. -/
def processQStartNoAckMode (s : SessionState) : SessionState × List SessionEvent :=
  let r := handle_QStartNoAckMode s
  (r.1, [SessionEvent.setNoAckMode]
        ++ [SessionEvent.emitResponse
             (match r.2 with
              | .needsOK => renderNeedsOK
              | _ => "")])

/-- Replay a list of session events over a state (only `setNoAckMode`
mutates the state). -/
def applyEvents (evs : List SessionEvent) (s : SessionState) : SessionState :=
  evs.foldl
    (fun st e =>
      match e with
      | .setNoAckMode => { st with noAckMode := true }
      | .emitResponse _ => st) s

/-- The `op` field of an `H` packet (`_h_upcase::Op`): `Hc` (step/continue)
or `Hg` (other). -/
inductive HOp
  | stepContinue
  | other
deriving DecidableEq, Repr

/-- The `Base::H` arm of `handle_base` (`src/gdbstub_impl/ext/base.rs`,
lines 299-318): `Hg` updates `current_mem_tid` (wildcard `All` is
rejected, `Any` keeps the prior value); `Hc` updates
`current_resume_tid`. -/
def handle_H (s : SessionState) (kind : HOp) (tid : IdKind) :
    Except Error (SessionState × HandlerStatus) :=
  match kind with
  | .other =>
    match tid with
    | .any => .ok (s, .needsOK)
    | .all => .error .packetUnexpected
    | .withID t => .ok ({ s with currentMemTid := t }, .needsOK)
  | .stepContinue =>
    match tid with
    | .any => .ok (s, .needsOK)
    | .all => .ok ({ s with currentResumeTid := .all }, .needsOK)
    | .withID t => .ok ({ s with currentResumeTid := .withID t }, .needsOK)

/-- Environment of one `eval_breakpoint_bytecode` call: `regRead` is the
joint outcome of `read_registers` and `Registers::pc()` (the program
counter on success); `conditions addr` (resp. `commands addr`) lists the
`BytecodeId`s that `BreakpointAgent::get_breakpoint_bytecode` yields to
its callback for that address, in order; `evalResult` is
`Agent::evaluate`. -/
structure AgentEnv where
  regRead : TargetResult Nat
  conditions : Nat → List Nat
  commands : Nat → List Nat
  evalResult : Nat → TargetResult Nat

/-- The console-output packet written when evaluating a breakpoint
condition fails non-fatally (`"O"` followed by the hex-encoded message). -/
def conditionErrorPacket : String :=
  "O" ++ hexBuf "error while evaluating breakpoint " ++ hexBuf "condition\n"

/-- The console-output packet written when evaluating a breakpoint command
fails non-fatally. -/
def commandErrorPacket : String :=
  "O" ++ hexBuf "error while evaluating breakpoint " ++ hexBuf "command\n"

/-- One step of the `eval_condition` closure in `eval_breakpoint_bytecode`
(`src/gdbstub_impl/ext/base.rs`, lines 619-643), acting on the pair of the
running `condition : Option Bool` and the console output so far. On
success the condition ORs in "value is non-zero"; on a fatal error the
closure stores the error in a local `err` variable that the function never
propagates (a dead store in the source), leaving the pair unchanged; on a
non-fatal error an `O` console packet is emitted and the condition is left
unchanged. -/
def condStep (env : AgentEnv) (st : Option Bool × List String) (id : Nat) :
    Option Bool × List String :=
  match env.evalResult id with
  | .ok val => (some ((val != 0) || st.1.getD false), st.2)
  | .error .fatal => st
  | .error (.errno _) => (st.1, st.2 ++ [conditionErrorPacket])

/-- The command-evaluation loop of `eval_breakpoint_bytecode`
(`src/gdbstub_impl/ext/base.rs`, lines 655-681): evaluate each command id
in order; results are ignored; a non-fatal error emits an `O` console
packet and continues; a fatal error aborts the iteration and propagates.
Returns (console output, ids evaluated, fatal error occurred). -/
def evalCommands (env : AgentEnv) : List Nat → List String × List Nat × Bool
  | [] => ([], [], false)
  | id :: rest =>
    match env.evalResult id with
    | .ok _ =>
      let r := evalCommands env rest
      (r.1, id :: r.2.1, r.2.2)
    | .error .fatal => ([], [id], true)
    | .error (.errno _) =>
      let r := evalCommands env rest
      (commandErrorPacket :: r.1, id :: r.2.1, r.2.2)

/-- The boolean a successfully evaluated condition contributes to the OR:
its value is non-zero (`false` for an id whose evaluation fails). -/
def condValue (env : AgentEnv) (id : Nat) : Bool :=
  match env.evalResult id with
  | .ok v => v != 0
  | .error _ => false

/-- Outcome of `eval_breakpoint_bytecode`: the returned
`Result<bool, Error>` (report the hit iff `ok true`), the console-output
packets flushed while evaluating, whether the condition (resp. command)
bytecode was fetched via `get_breakpoint_bytecode`, and which command ids
were passed to `evaluate`. -/
structure EvalBytecodeResult where
  result : Except Error Bool
  console : List String
  conditionsFetched : Bool
  commandsFetched : Bool
  commandsEvaluated : List Nat
deriving Repr

/-- `eval_breakpoint_bytecode` from `src/gdbstub_impl/ext/base.rs`
(lines 588-685): read the registers (a fatal read error is fatal, a
non-fatal one reports the hit immediately); fold the condition bytecode
with `condStep`; default the overall condition to `true` when no condition
recorded a value; when the overall condition holds, fetch and evaluate the
command bytecode; return the overall condition. -/
def eval_breakpoint_bytecode (env : AgentEnv) : EvalBytecodeResult :=
  match env.regRead with
  | .error .fatal =>
    { result := .error .targetError, console := [],
      conditionsFetched := false, commandsFetched := false, commandsEvaluated := [] }
  | .error (.errno _) =>
    { result := .ok true, console := [],
      conditionsFetched := false, commandsFetched := false, commandsEvaluated := [] }
  | .ok addr =>
    let condSt := (env.conditions addr).foldl (condStep env) (none, [])
    let condition := condSt.1.getD true
    if condition then
      let r := evalCommands env (env.commands addr)
      { result := if r.2.2 then .error .targetError else .ok true,
        console := condSt.2 ++ r.1,
        conditionsFetched := true, commandsFetched := true, commandsEvaluated := r.2.1 }
    else
      { result := .ok false, console := condSt.2,
        conditionsFetched := true, commandsFetched := false, commandsEvaluated := [] }

/-- The breakpoint-agent capability as consulted by `finish_vcont`:
whether `breakpoint_bytecode_executor()` is `Gdbstub`, and the evaluation
environment. -/
structure BreakpointAgentCfg where
  executorIsGdbstub : Bool
  env : AgentEnv

/-- Result of `finish_vcont`: the session state on return, the console
packets flushed, and either a fatal error, `none` (no stop-reply was
emitted; the resume loop re-enters), or the emitted stop-reply with the
handler status. -/
structure FinishVcontResult where
  state : SessionState
  console : List String
  reply : Except Error (Option (String × HandlerStatus))

/-- The `<reason>` fragment of a break/watch stop-reply
(`src/gdbstub_impl/ext/base.rs`, lines 561-575): `swbreak:`/`hwbreak:`
carry no address; watchpoints append the triggering address in hex. -/
def breakReasonToken : ThreadStopReason → String
  | .swBreak _ => "swbreak:"
  | .hwBreak _ => "hwbreak:"
  | .watch _ kind addr =>
    (match kind with
     | .write => "watch:"
     | .read => "rwatch:"
     | .readWrite => "awatch:") ++ hexStr addr
  | _ => ""

/-- The full `T05` stop-reply emitted for a reported break/watch stop
(`src/gdbstub_impl/ext/base.rs`, lines 552-577). -/
def breakReply (stopReason : ThreadStopReason) (tid : Tid) : String :=
  "T05" ++ "thread:" ++ threadIdStr FAKE_PID tid ++ ";" ++ breakReasonToken stopReason ++ ";"

/-- The shared `SwBreak`/`HwBreak`/`Watch` arm of `finish_vcont`
(`src/gdbstub_impl/ext/base.rs`, lines 534-578): update
`current_mem_tid`/`current_resume_tid` to the stopped TID, then, when the
target advertises a breakpoint agent whose executor is `Gdbstub`, run
`eval_breakpoint_bytecode`; a false condition suppresses the stop-reply
(returning `none`), otherwise the `T05` reply is emitted. -/
def finishBreak (bpAgent : Option BreakpointAgentCfg) (s : SessionState)
    (stopReason : ThreadStopReason) (tid : Tid) : FinishVcontResult :=
  let s' := { s with currentMemTid := tid, currentResumeTid := .withID tid }
  match bpAgent with
  | some agentOps =>
    if agentOps.executorIsGdbstub then
      let ev := eval_breakpoint_bytecode agentOps.env
      match ev.result with
      | .error e => { state := s', console := ev.console, reply := .error e }
      | .ok false => { state := s', console := ev.console, reply := .ok none }
      | .ok true =>
        { state := s', console := ev.console,
          reply := .ok (some (breakReply stopReason tid, .handled)) }
    else
      { state := s', console := [],
        reply := .ok (some (breakReply stopReason tid, .handled)) }
  | none =>
    { state := s', console := [],
      reply := .ok (some (breakReply stopReason tid, .handled)) }

/-- `finish_vcont` from `src/gdbstub_impl/ext/base.rs` (lines 513-583):
translate a stop reason into a wire stop-reply and handler status. -/
def finish_vcont (bpAgent : Option BreakpointAgentCfg) (s : SessionState)
    (stopReason : ThreadStopReason) : FinishVcontResult :=
  match stopReason with
  | .doneStep => { state := s, console := [], reply := .ok (some ("S05", .handled)) }
  | .gdbInterrupt => { state := s, console := [], reply := .ok (some ("S05", .handled)) }
  | .signal code =>
    { state := s, console := [], reply := .ok (some ("S" ++ hexStr code, .handled)) }
  | .halted =>
    { state := s, console := [],
      reply := .ok (some ("W19", .disconnect .targetHalted)) }
  | .swBreak tid => finishBreak bpAgent s stopReason tid
  | .hwBreak tid => finishBreak bpAgent s stopReason tid
  | .watch tid _ _ => finishBreak bpAgent s stopReason tid

/-- A specific thread id as carried by a `vCont` action
(`SpecificThreadId`). -/
structure SpecificThreadId where
  pid : Option SpecificIdKind
  tid : SpecificIdKind
deriving DecidableEq, Repr

/-- The action kind of one `vCont` action (`_vCont::VContKind`). -/
inductive VContKind
  | cont
  | step
  | contWithSig (sig : Nat)
  | stepWithSig (sig : Nat)
  | stop
deriving DecidableEq, Repr

/-- One parsed `vCont` action (`_vCont::VContAction`): an action kind and
an optional thread filter. -/
structure VContAction where
  kind : VContKind
  thread : Option SpecificThreadId
deriving DecidableEq, Repr

/-- The parsed action list of a `vCont;<actions>` packet: iterating
`Actions` yields `Option<VContAction>`, with `none` marking a per-action
parse failure. -/
abbrev Actions := List (Option VContAction)

/-- The kind-to-`ResumeAction` translation shared verbatim by
`do_vcont_single_thread` and `do_vcont_multi_thread`
(`src/gdbstub_impl/ext/base.rs`, lines 403-410 and 454-463): `Stop` has no
translation and raises `PacketUnexpected`. -/
def vContKindAction : VContKind → Option ResumeAction
  | .step => some .step
  | .cont => some .cont
  | .stepWithSig sig => some (.stepWithSignal sig)
  | .contWithSig sig => some (.contWithSignal sig)
  | .stop => none

/-- Target calls observable during a multi-threaded `vCont` resume. -/
inductive MTCall
  | clearResumeActions
  | setResumeAction (tid : Tid) (action : ResumeAction)
  | resume (action : ResumeAction)
deriving DecidableEq, Repr

/-- The multi-threaded target as consulted by `do_vcont_multi_thread`:
whether `clear_resume_actions` and each `set_resume_action` call succeed,
and the outcome of `resume` (`.error ()` standing for a fatal target
error). -/
structure MultiThreadOracle where
  clearOk : Bool
  setOk : Tid → ResumeAction → Bool
  resumeRes : ResumeAction → Except Unit ThreadStopReason

/-- The per-action loop of `do_vcont_multi_thread`
(`src/gdbstub_impl/ext/base.rs`, lines 447-472), threading the default
resume action and the trace of target calls so far: a malformed action
fails with `PacketParse(MalformedCommand)`; a `Stop` kind with
`PacketUnexpected`; an absent or `All` thread filter replaces the default;
a specific TID issues `set_resume_action`. -/
def doVcontMTLoop (o : MultiThreadOracle) (defaultAction : ResumeAction)
    (trace : List MTCall) : Actions → Except Error (List MTCall × ResumeAction)
  | [] => .ok (trace, defaultAction)
  | none :: _ => .error (.packetParse .malformedCommand)
  | some a :: rest =>
    match vContKindAction a.kind with
    | none => .error .packetUnexpected
    | some ra =>
      match a.thread.map (fun t => t.tid) with
      | none => doVcontMTLoop o ra trace rest
      | some SpecificIdKind.all => doVcontMTLoop o ra trace rest
      | some (SpecificIdKind.withID tid) =>
        if o.setOk tid ra then
          doVcontMTLoop o defaultAction (trace ++ [.setResumeAction tid ra]) rest
        else .error .targetError

/-- `do_vcont_multi_thread` from `src/gdbstub_impl/ext/base.rs`
(lines 433-492): start from default `Continue`, call
`clear_resume_actions`, process each action, then `resume(default)`.
Returns the full trace of target calls and the stop reason. -/
def do_vcont_multi_thread (o : MultiThreadOracle) (actions : Actions) :
    Except Error (List MTCall × ThreadStopReason) :=
  if o.clearOk then
    match doVcontMTLoop o .cont [MTCall.clearResumeActions] actions with
    | .error e => .error e
    | .ok (trace, d) =>
      match o.resumeRes d with
      | .error _ => .error .targetError
      | .ok stop => .ok (trace ++ [.resume d], stop)
  else .error .targetError

/-- `do_vcont_single_thread` from `src/gdbstub_impl/ext/base.rs`
(lines 382-431): take the first action from the iterator (an empty list is
`PacketUnexpected`, a malformed first action is
`PacketParse(MalformedCommand)`), translate its kind, and resume with it.
Returns the resume action used together with the stop reason. -/
def do_vcont_single_thread (resumeRes : ResumeAction → Except Unit ThreadStopReason)
    (actions : Actions) : Except Error (ResumeAction × ThreadStopReason) :=
  match actions.head? with
  | none => .error .packetUnexpected
  | some none => .error (.packetParse .malformedCommand)
  | some (some a) =>
    match vContKindAction a.kind with
    | none => .error .packetUnexpected
    | some ra =>
      match resumeRes ra with
      | .error _ => .error .targetError
      | .ok stop => .ok (ra, stop)

/-- How one parsed action updates the session default resume action: an
absent or `All` thread filter installs the action's kind as the default. -/
def defaultStep (d : ResumeAction) (x : Option VContAction) : ResumeAction :=
  match x with
  | some a =>
    match a.thread.map (fun t => t.tid) with
    | none => (vContKindAction a.kind).getD d
    | some SpecificIdKind.all => (vContKindAction a.kind).getD d
    | some (SpecificIdKind.withID _) => d
  | none => d

/-- The session default resume action that `do_vcont_multi_thread` ends up
passing to `resume`: the last well-formed action whose thread filter is
absent or `All`, starting from `Continue`. -/
def defaultActionOf (actions : Actions) : ResumeAction :=
  actions.foldl defaultStep .cont

/-- The `set_resume_action` calls that `do_vcont_multi_thread` issues, in
action order: one per well-formed action carrying a specific TID. -/
def setCallsOf (actions : Actions) : List MTCall :=
  actions.filterMap
    (fun x =>
      match x with
      | some a =>
        match a.thread.map (fun t => t.tid) with
        | some (SpecificIdKind.withID tid) =>
          (vContKindAction a.kind).map (fun ra => MTCall.setResumeAction tid ra)
        | _ => none
      | none => none)

/-- Modelled from the spec: the parse of the packet `vCont;s:2;c` (the
`_vCont` action parser is not under `src/`; spec section 4.4 scenario 5
describes the parsed form): a `Step` action for TID 2 followed by a
`Continue` action with no thread filter. -/
def vContS2C : Actions :=
  [some { kind := .step, thread := some { pid := none, tid := .withID 2 } },
   some { kind := .cont, thread := none }]

/-- The initial session state (spec section 3: `no_ack_mode` false,
`current_mem_tid` the reserved single-thread TID, `current_resume_tid`
"all"). -/
def initialState : SessionState :=
  { noAckMode := false, currentMemTid := SINGLE_THREAD_TID, currentResumeTid := .all }

/-- Concrete capability surface of spec scenario 1: software breakpoints
and target-description XML, nothing else. -/
def capsSwXml : TargetCaps :=
  { extendedMode := none, agent := false,
    breakpoints := some { sw := true, hw := false, hwWatch := false, bpAgent := false },
    targetXml := true }

/-- A concrete breakpoints capability whose operations all succeed. -/
def opsAllOk : BreakpointsOps :=
  { sw := some { add := fun _ _ => .ok true, remove := fun _ _ => .ok true },
    hw := some { add := fun _ _ => .ok true, remove := fun _ _ => .ok true },
    hwWatch := some { add := fun _ _ => .ok true, remove := fun _ _ => .ok true } }

/-- A concrete agent environment: registers read fine (PC 0x2000), one
condition bytecode is registered, no commands, and every evaluation fails
with a fatal target error. -/
def envCondFatal : AgentEnv :=
  { regRead := .ok 0x2000,
    conditions := fun _ => [1],
    commands := fun _ => [],
    evalResult := fun _ => .error .fatal }

/-- A concrete agent environment: registers read fine (PC 0x2000), two
conditions (id 1 evaluates to 0, id 2 to 7), one command (id 5) that
evaluates fine. -/
def envTwoConds : AgentEnv :=
  { regRead := .ok 0x2000,
    conditions := fun _ => [1, 2],
    commands := fun _ => [5],
    evalResult := fun id => .ok (if id = 2 then 7 else 0) }

/-- A concrete multi-threaded target whose clear/set operations succeed
and whose `resume` stops with `HwBreak(3)` (spec scenario 5). -/
def oracleAllOk : MultiThreadOracle :=
  { clearOk := true,
    setOk := fun _ _ => true,
    resumeRes := fun _ => .ok (.hwBreak 3) }

/-- A concrete single-threaded resume that always stops with `DoneStep`. -/
def resumeDoneStep : ResumeAction → Except Unit ThreadStopReason :=
  fun _ => .ok .doneStep

/-- A two-action `vCont` list (`vCont;c;s`): a continue followed by a
step, neither with a thread filter. -/
def twoActions : Actions :=
  [some { kind := .cont, thread := none },
   some { kind := .step, thread := none }]

/-- The state reached by `finishBreak` is the input state with both
current TIDs retargeted to the stopped thread, whatever the agent
configuration and the outcome of bytecode evaluation. -/
theorem finishBreak_state (bpAgent : Option BreakpointAgentCfg) (s : SessionState)
    (r : ThreadStopReason) (tid : Tid) :
    (finishBreak bpAgent s r tid).state
      = { s with currentMemTid := tid, currentResumeTid := .withID tid } := by
  rcases bpAgent with _ | a
  · rfl
  · unfold finishBreak
    by_cases h : a.executorIsGdbstub
    · simp only [h, if_true]
      cases hres : (eval_breakpoint_bytecode a.env).result with
      | error e => simp [hres]
      | ok b => cases b <;> simp [hres]
    · simp [h]

/-- A `pending` call on a value whose `ready` latch is set returns `true`
and the value unchanged. -/
theorem pending_of_ready (t : GdbInterruptManualPoll) (ht : t.ready = true) :
    pending t = (true, t) := by
  unfold pending
  simp [ht]

/-- C10: `GdbInterruptManualPoll::pending` is monotone: once a call has
returned `true`, a subsequent call on the resulting value returns `true`
and leaves the value unchanged — in particular the underlying poll
callback is not invoked and the future is not polled again, since the
invocation counter inside the value is untouched. -/
theorem pending_monotone (s : GdbInterruptManualPoll) (h : (pending s).1 = true) :
    pending (pending s).2 = (true, (pending s).2) := by
  have hready : (pending s).2.ready = true := by
    by_cases hr : s.ready
    · simp [pending, hr]
    · cases hi : s.inner with
      | poll fn calls =>
        simp [pending, hr, hi] at h ⊢
        exact h
      | future fn polls =>
        simp [pending, hr, hi] at h ⊢
        exact h
  exact pending_of_ready _ hready

/-- Witness for `pending_monotone`: a concrete manual-poll interrupt whose
callback fires on the first invocation. -/
theorem pending_monotone_witness :
    (pending ⟨false, .poll (fun _ => true) 0⟩).1 = true ∧
    pending (pending ⟨false, .poll (fun _ => true) 0⟩).2
      = (true, (pending ⟨false, .poll (fun _ => true) 0⟩).2) :=
  ⟨rfl, pending_monotone _ rfl⟩

/-- C4 counterexample: for a single-threaded target, a `vCont` packet with
two actions (`vCont;c;s`) is not rejected with `PacketUnexpected`; the
engine resumes with the first action and ignores the second. -/
theorem vcont_single_thread_two_actions_accepted :
    do_vcont_single_thread resumeDoneStep twoActions = .ok (.cont, .doneStep) ∧
    do_vcont_single_thread resumeDoneStep twoActions ≠ .error .packetUnexpected := by
  refine ⟨rfl, ?_⟩
  intro h
  rw [show do_vcont_single_thread resumeDoneStep twoActions = .ok (.cont, .doneStep)
        from rfl] at h
  exact Except.noConfusion h

/-- C4 amended: a single-threaded `vCont` requires at least one action: an
empty action list fails with `PacketUnexpected`, and any action beyond the
first is ignored (the result only depends on the first action). -/
theorem vcont_single_thread_first_action :
    (∀ r, do_vcont_single_thread r [] = .error .packetUnexpected) ∧
    (∀ r a rest, do_vcont_single_thread r (a :: rest) = do_vcont_single_thread r [a]) :=
  ⟨fun _ => rfl, fun _ _ _ => rfl⟩

/-- C5 counterexample: processing `QStartNoAckMode` from the initial
session state sets `no_ack_mode` during command handling — before the `OK`
response is emitted — so the flag is already `true` (not `false`) at the
point just before the response is sent. -/
theorem noack_flag_set_before_ok_emitted :
    (processQStartNoAckMode initialState).2
      = [SessionEvent.setNoAckMode, SessionEvent.emitResponse "OK"] ∧
    ¬ ((applyEvents
          ((processQStartNoAckMode initialState).2.takeWhile
            (fun e => e != SessionEvent.emitResponse renderNeedsOK))
          initialState).noAckMode = false) := by
  exact ⟨rfl, by decide⟩

/-- C5 amended: the `no_ack_mode` flag is set while handling
`QStartNoAckMode`, before the `OK` response is emitted; the handler then
reports `NeedsOK`, so the `OK` is still emitted right after. -/
theorem noack_flag_set_during_handling (s : SessionState) :
    processQStartNoAckMode s
      = ({ s with noAckMode := true },
         [SessionEvent.setNoAckMode, SessionEvent.emitResponse renderNeedsOK]) := rfl

/-- C1: evaluating the code at the failing input — a breakpoint hit whose
single condition bytecode evaluation fails with a FATAL target error.
`eval_breakpoint_bytecode` stores the error in a local variable that is
never propagated, so it returns `Ok(true)`: the hit is reported and the
session continues, no console packet is emitted, and the command bytecode
is still fetched — instead of the session aborting with
`Error::TargetError` as the specification requires. -/
theorem breakpoint_condition_fatal_error_swallowed :
    (eval_breakpoint_bytecode envCondFatal).result = .ok true ∧
    (eval_breakpoint_bytecode envCondFatal).console = [] ∧
    (eval_breakpoint_bytecode envCondFatal).commandsFetched = true :=
  ⟨rfl, rfl, rfl⟩

/-- C3: the stop-reason → wire-reply translation of `finish_vcont`:
`DoneStep`/`GdbInterrupt` → `S05`; `Signal(code)` → `S` + hex code;
`Halted` → `W19` with `Disconnect(TargetHalted)`; break/watch stops first
retarget `current_mem_tid`/`current_resume_tid` to the stopped TID (for
any agent configuration) and, when reported, emit
`T05thread:p<pid>.<tid>;<reason>;` where watch reasons carry the
triggering address in hex and sw/hw break reasons carry none. -/
theorem finish_vcont_stop_replies (bpAgent : Option BreakpointAgentCfg)
    (s : SessionState) (code tid addr : Nat) :
    finish_vcont bpAgent s .doneStep
      = { state := s, console := [], reply := .ok (some ("S05", .handled)) } ∧
    finish_vcont bpAgent s .gdbInterrupt
      = { state := s, console := [], reply := .ok (some ("S05", .handled)) } ∧
    finish_vcont bpAgent s (.signal code)
      = { state := s, console := [],
          reply := .ok (some ("S" ++ hexStr code, .handled)) } ∧
    finish_vcont bpAgent s .halted
      = { state := s, console := [],
          reply := .ok (some ("W19", .disconnect .targetHalted)) } ∧
    ((finish_vcont bpAgent s (.swBreak tid)).state
      = { s with currentMemTid := tid, currentResumeTid := .withID tid }) ∧
    ((finish_vcont bpAgent s (.hwBreak tid)).state
      = { s with currentMemTid := tid, currentResumeTid := .withID tid }) ∧
    (∀ kind, (finish_vcont bpAgent s (.watch tid kind addr)).state
      = { s with currentMemTid := tid, currentResumeTid := .withID tid }) ∧
    finish_vcont none s (.swBreak tid)
      = { state := { s with currentMemTid := tid, currentResumeTid := .withID tid },
          console := [],
          reply := .ok (some
            ("T05" ++ "thread:" ++ threadIdStr FAKE_PID tid ++ ";" ++ "swbreak:" ++ ";",
             .handled)) } ∧
    finish_vcont none s (.hwBreak tid)
      = { state := { s with currentMemTid := tid, currentResumeTid := .withID tid },
          console := [],
          reply := .ok (some
            ("T05" ++ "thread:" ++ threadIdStr FAKE_PID tid ++ ";" ++ "hwbreak:" ++ ";",
             .handled)) } ∧
    finish_vcont none s (.watch tid .write addr)
      = { state := { s with currentMemTid := tid, currentResumeTid := .withID tid },
          console := [],
          reply := .ok (some
            ("T05" ++ "thread:" ++ threadIdStr FAKE_PID tid ++ ";"
               ++ ("watch:" ++ hexStr addr) ++ ";", .handled)) } ∧
    finish_vcont none s (.watch tid .read addr)
      = { state := { s with currentMemTid := tid, currentResumeTid := .withID tid },
          console := [],
          reply := .ok (some
            ("T05" ++ "thread:" ++ threadIdStr FAKE_PID tid ++ ";"
               ++ ("rwatch:" ++ hexStr addr) ++ ";", .handled)) } ∧
    finish_vcont none s (.watch tid .readWrite addr)
      = { state := { s with currentMemTid := tid, currentResumeTid := .withID tid },
          console := [],
          reply := .ok (some
            ("T05" ++ "thread:" ++ threadIdStr FAKE_PID tid ++ ";"
               ++ ("awatch:" ++ hexStr addr) ++ ";", .handled)) } := by
  refine ⟨rfl, rfl, rfl, rfl, ?_, ?_, fun kind => ?_, rfl, rfl, rfl, rfl, rfl⟩
  · exact finishBreak_state bpAgent s _ tid
  · exact finishBreak_state bpAgent s _ tid
  · exact finishBreak_state bpAgent s _ tid

/-- C8: `current_mem_tid` only ever receives specific TIDs: `Hg` with the
wildcard `All` fails with `PacketUnexpected`; `Hg` with `Any` keeps the
prior value; `Hg` with a concrete TID installs it; `Hc` never touches
`current_mem_tid`; and `finish_vcont` rewrites it exactly at break/watch
stops, to the concrete stopped TID. -/
theorem current_mem_tid_stays_specific (s : SessionState) :
    handle_H s .other .all = .error .packetUnexpected ∧
    (handle_H s .other .any).map (fun p => p.1.currentMemTid) = .ok s.currentMemTid ∧
    (∀ t, (handle_H s .other (.withID t)).map (fun p => p.1.currentMemTid) = .ok t) ∧
    (∀ k, (handle_H s .stepContinue k).map (fun p => p.1.currentMemTid)
        = .ok s.currentMemTid) ∧
    (∀ cfg r, (finish_vcont cfg s r).state.currentMemTid =
        (match r with
         | .swBreak tid => tid
         | .hwBreak tid => tid
         | .watch tid _ _ => tid
         | _ => s.currentMemTid)) := by
  refine ⟨rfl, rfl, fun t => rfl, fun k => ?_, fun cfg r => ?_⟩
  · cases k <;> rfl
  · cases r with
    | swBreak tid => rw [show finish_vcont cfg s (.swBreak tid) = finishBreak cfg s _ tid from rfl,
        finishBreak_state]
    | hwBreak tid => rw [show finish_vcont cfg s (.hwBreak tid) = finishBreak cfg s _ tid from rfl,
        finishBreak_state]
    | watch tid kind addr => rw [show finish_vcont cfg s (.watch tid kind addr)
        = finishBreak cfg s _ tid from rfl, finishBreak_state]
    | _ => rfl

/-- C6: for every `z`/`Z` packet with type field 0-4: an absent
sub-capability makes the engine respond as `Handled` with no payload;
`Ok(false)` from the add/remove operation yields non-fatal error 22,
rendered to the client as `E16`; `Ok(true)` yields the `OK` response. -/
theorem z_packet_behavior (ops : BreakpointsOps) (c : BasicBreakpoint)
    (h : c.type_ ≤ 4) :
    ((zInsertResult ops c = none →
        handle_breakpoints (some ops) (.Z c) = .ok .handled) ∧
     (zInsertResult ops c = some (.ok false) →
        handle_breakpoints (some ops) (.Z c) = .error (.nonFatalError 22)) ∧
     (zInsertResult ops c = some (.ok true) →
        handle_breakpoints (some ops) (.Z c) = .ok .needsOK)) ∧
    ((zRemoveResult ops c = none →
        handle_breakpoints (some ops) (.z c) = .ok .handled) ∧
     (zRemoveResult ops c = some (.ok false) →
        handle_breakpoints (some ops) (.z c) = .error (.nonFatalError 22)) ∧
     (zRemoveResult ops c = some (.ok true) →
        handle_breakpoints (some ops) (.z c) = .ok .needsOK)) ∧
    renderNonFatalError 22 = "E16" ∧ renderNeedsOK = "OK" := by
  have hZ : handle_breakpoints (some ops) (.Z c)
      = (match zInsertResult ops c with
         | none => .ok .handled
         | some (.error e) => .error (liftTargetError e)
         | some (.ok true) => .ok .needsOK
         | some (.ok false) => .error (.nonFatalError 22)) := rfl
  have hz : handle_breakpoints (some ops) (.z c)
      = (match zRemoveResult ops c with
         | none => .ok .handled
         | some (.error e) => .error (liftTargetError e)
         | some (.ok true) => .ok .needsOK
         | some (.ok false) => .error (.nonFatalError 22)) := rfl
  refine ⟨⟨fun hx => ?_, fun hx => ?_, fun hx => ?_⟩,
          ⟨fun hx => ?_, fun hx => ?_, fun hx => ?_⟩, rfl, rfl⟩
  · rw [hZ, hx]
  · rw [hZ, hx]
  · rw [hZ, hx]
  · rw [hz, hx]
  · rw [hz, hx]
  · rw [hz, hx]

/-- Witness for `z_packet_behavior`: a `Z0` (software breakpoint insert)
whose add operation reports success is answered with `OK`. -/
theorem z_packet_behavior_witness :
    (⟨0, 4096, 4⟩ : BasicBreakpoint).type_ ≤ 4 ∧
    zInsertResult opsAllOk ⟨0, 4096, 4⟩ = some (.ok true) ∧
    handle_breakpoints (some opsAllOk) (.Z ⟨0, 4096, 4⟩) = .ok .needsOK :=
  ⟨by decide, rfl,
   (z_packet_behavior opsAllOk ⟨0, 4096, 4⟩ (by decide)).1.2.2 rfl⟩

/-- A well-formed action kind (not `Stop`) always has a resume-action
translation. -/
theorem vContKindAction_isSome (k : VContKind) (hk : k ≠ VContKind.stop) :
    ∃ ra, vContKindAction k = some ra := by
  cases k with
  | stop => exact absurd rfl hk
  | _ => exact ⟨_, rfl⟩

/-- When every `set_resume_action` call succeeds and every action is
well-formed, the per-action loop of `do_vcont_multi_thread` succeeds,
appending exactly the specific-TID `set_resume_action` calls to the trace
and folding the default updates over the actions. -/
theorem doVcontMTLoop_ok (o : MultiThreadOracle)
    (hset : ∀ tid ra, o.setOk tid ra = true) :
    ∀ (actions : Actions) (d : ResumeAction) (trace : List MTCall),
      (∀ x ∈ actions, ∃ a, x = some a ∧ a.kind ≠ VContKind.stop) →
      doVcontMTLoop o d trace actions
        = .ok (trace ++ setCallsOf actions, actions.foldl defaultStep d) := by
  intro actions
  induction actions with
  | nil => intro d trace _; simp [doVcontMTLoop, setCallsOf]
  | cons x rest ih =>
    intro d trace hwf
    obtain ⟨a, rfl, hk⟩ := hwf x (List.mem_cons_self _ _)
    have hrest : ∀ y ∈ rest, ∃ b, y = some b ∧ b.kind ≠ VContKind.stop :=
      fun y hy => hwf y (List.mem_cons_of_mem _ hy)
    obtain ⟨ra, hra⟩ := vContKindAction_isSome a.kind hk
    cases hth : a.thread.map (fun t => t.tid) with
    | none =>
      simp only [doVcontMTLoop, hra, hth]
      rw [ih ra trace hrest]
      simp [setCallsOf, List.filterMap_cons, hth, defaultStep, hra]
    | some sk =>
      cases sk with
      | all =>
        simp only [doVcontMTLoop, hra, hth]
        rw [ih ra trace hrest]
        simp [setCallsOf, List.filterMap_cons, hth, defaultStep, hra]
      | withID tid =>
        simp only [doVcontMTLoop, hra, hth, hset tid ra, if_true]
        rw [ih d (trace ++ [MTCall.setResumeAction tid ra]) hrest]
        simp [setCallsOf, List.filterMap_cons, hth, defaultStep, hra]

/-- C2: for a multi-threaded target, `vCont;<actions>` first clears all
resume actions, then processes each well-formed action in order — a
specific-TID action issues `set_resume_action(tid, action)`, an action
with an absent ("any") or `All` filter becomes the session default — and
finally calls `resume(default)`, the default being `Continue` when no
absent/`All` action replaced it. In particular `vCont;s:2;c` clears
actions, sets TID 2 to Step, sets the default to Continue, and calls
`resume(Continue)`. -/
theorem vcont_multi_thread_actions (o : MultiThreadOracle)
    (hclear : o.clearOk = true)
    (hset : ∀ tid ra, o.setOk tid ra = true) :
    (∀ (actions : Actions) (stop : ThreadStopReason),
       (∀ x ∈ actions, ∃ a, x = some a ∧ a.kind ≠ VContKind.stop) →
       o.resumeRes (defaultActionOf actions) = .ok stop →
       do_vcont_multi_thread o actions
         = .ok (MTCall.clearResumeActions :: setCallsOf actions
                  ++ [MTCall.resume (defaultActionOf actions)], stop)) ∧
    (∀ stop : ThreadStopReason, o.resumeRes .cont = .ok stop →
       do_vcont_multi_thread o vContS2C
         = .ok ([MTCall.clearResumeActions, MTCall.setResumeAction 2 .step,
                 MTCall.resume .cont], stop)) := by
  have hgen : ∀ (actions : Actions) (stop : ThreadStopReason),
      (∀ x ∈ actions, ∃ a, x = some a ∧ a.kind ≠ VContKind.stop) →
      o.resumeRes (defaultActionOf actions) = .ok stop →
      do_vcont_multi_thread o actions
        = .ok (MTCall.clearResumeActions :: setCallsOf actions
                 ++ [MTCall.resume (defaultActionOf actions)], stop) := by
    intro actions stop hwf hres
    unfold do_vcont_multi_thread
    rw [hclear]
    simp only [if_true]
    rw [doVcontMTLoop_ok o hset actions .cont [MTCall.clearResumeActions] hwf]
    have hd : actions.foldl defaultStep .cont = defaultActionOf actions := rfl
    rw [hd]
    simp [hres]
  refine ⟨hgen, fun stop hres => ?_⟩
  have hwf2 : ∀ x ∈ vContS2C, ∃ a, x = some a ∧ a.kind ≠ VContKind.stop := by
    intro x hx
    simp only [vContS2C, List.mem_cons, List.not_mem_nil, or_false] at hx
    rcases hx with rfl | rfl
    · exact ⟨_, rfl, by decide⟩
    · exact ⟨_, rfl, by decide⟩
  exact hgen vContS2C stop hwf2 hres

/-- Witness for `vcont_multi_thread_actions`: the all-succeeding target of
spec scenario 5, where `resume(Continue)` stops with `HwBreak(3)`. -/
theorem vcont_multi_thread_actions_witness :
    do_vcont_multi_thread oracleAllOk vContS2C
      = .ok ([MTCall.clearResumeActions, MTCall.setResumeAction 2 .step,
              MTCall.resume .cont], .hwBreak 3) :=
  (vcont_multi_thread_actions oracleAllOk rfl (fun _ _ => rfl)).2 _ rfl

/-- When every condition evaluation succeeds, the condition fold of
`eval_breakpoint_bytecode` computes, in its first component, the pure
OR-fold of the conditions' non-zero flags. -/
theorem foldl_condStep_all_ok (env : AgentEnv) :
    ∀ (conds : List Nat) (acc : Option Bool × List String),
      (∀ id ∈ conds, ∃ v, env.evalResult id = .ok v) →
      (conds.foldl (condStep env) acc).1
        = conds.foldl (fun c id => some (condValue env id || c.getD false)) acc.1 := by
  intro conds
  induction conds with
  | nil => intro acc _; rfl
  | cons i rest ih =>
    intro acc hok
    obtain ⟨v, hv⟩ := hok i (List.mem_cons_self _ _)
    have hrest := fun y hy => hok y (List.mem_cons_of_mem _ hy)
    simp only [List.foldl_cons]
    rw [ih _ hrest]
    have hstep : (condStep env acc i).1 = some (condValue env i || acc.1.getD false) := by
      simp [condStep, condValue, hv]
    rw [hstep]

/-- The pure OR-fold started from a recorded value accumulates the `any`
of the list. -/
theorem foldl_orOpt (g : Nat → Bool) :
    ∀ (l : List Nat) (b : Bool),
      l.foldl (fun c id => some (g id || c.getD false)) (some b)
        = some (b || l.any g) := by
  intro l
  induction l with
  | nil => intro b; simp
  | cons i rest ih =>
    intro b
    simp only [List.foldl_cons, Option.getD_some, List.any_cons]
    rw [ih]
    congr 1
    cases g i <;> cases b <;> cases rest.any g <;> rfl

/-- The pure OR-fold started from `none` records no value for an empty
condition list, and the `any` of a non-empty one. -/
theorem foldl_orOpt_none (g : Nat → Bool) (l : List Nat) :
    l.foldl (fun c id => some (g id || c.getD false)) none
      = (match l with
         | [] => none
         | _ :: _ => some (l.any g)) := by
  cases l with
  | nil => rfl
  | cons i rest =>
    simp only [List.foldl_cons, Option.getD_none, Bool.or_false, List.any_cons]
    rw [foldl_orOpt]

/-- After a successful register read, the command bytecode is fetched
exactly when the folded condition (defaulted to `true` when no value was
recorded) holds, and a suppressed hit evaluates no command ids. -/
theorem eval_bp_commandsFetched (env : AgentEnv) (addr : Nat)
    (hreg : env.regRead = .ok addr) :
    (eval_breakpoint_bytecode env).commandsFetched
      = ((env.conditions addr).foldl (condStep env) (none, [])).1.getD true ∧
    ((eval_breakpoint_bytecode env).commandsFetched = false →
      (eval_breakpoint_bytecode env).commandsEvaluated = []) := by
  unfold eval_breakpoint_bytecode
  rw [hreg]
  by_cases hc : ((env.conditions addr).foldl (condStep env) (none, [])).1.getD true
  · constructor
    · simp only [hc, if_true]
    · intro hfalse
      simp only [hc, if_true] at hfalse
      exact Bool.noConfusion hfalse
  · rw [Bool.not_eq_true] at hc
    constructor
    · simp only [hc, Bool.false_eq_true, if_false]
    · intro _
      simp only [hc, Bool.false_eq_true, if_false]

/-- C9: breakpoint command bytecode is fetched and evaluated iff the
overall condition was determined true — with all condition evaluations
succeeding, iff no condition is registered or some condition evaluates to
a non-zero value; when the overall condition is false, no command
bytecode is fetched or evaluated. -/
theorem breakpoint_commands_iff_condition (env : AgentEnv) (addr : Nat)
    (hreg : env.regRead = .ok addr)
    (hok : ∀ id ∈ env.conditions addr, ∃ v, env.evalResult id = .ok v) :
    ((eval_breakpoint_bytecode env).commandsFetched = true ↔
      (env.conditions addr = [] ∨
        ∃ id ∈ env.conditions addr, ∃ v, env.evalResult id = .ok v ∧ v ≠ 0)) ∧
    ((eval_breakpoint_bytecode env).commandsFetched = false →
      (eval_breakpoint_bytecode env).commandsEvaluated = []) := by
  obtain ⟨hcf, hce⟩ := eval_bp_commandsFetched env addr hreg
  refine ⟨?_, hce⟩
  rw [hcf]
  have hfold := foldl_condStep_all_ok env (env.conditions addr) (none, []) hok
  rw [show ((none, []) : Option Bool × List String).1 = none from rfl] at hfold
  rw [hfold, foldl_orOpt_none]
  rcases hcl : env.conditions addr with _ | ⟨i, rest⟩
  · simp
  · simp only [Option.getD_some, List.any_eq_true]
    constructor
    · rintro ⟨id, hid, hcv⟩
      right
      obtain ⟨v, hv⟩ := hok id (by rw [hcl]; exact hid)
      refine ⟨id, hid, v, hv, ?_⟩
      simpa [condValue, hv] using hcv
    · rintro (hnil | ⟨id, hid, v, hv, hvne⟩)
      · exact absurd hnil (List.cons_ne_nil i rest)
      · refine ⟨id, hid, ?_⟩
        simp [condValue, hv, hvne]

/-- Witness for `breakpoint_commands_iff_condition`: two conditions with
values 0 and 7 — the OR is non-zero, so the command bytecode is fetched. -/
theorem breakpoint_commands_iff_condition_witness :
    (eval_breakpoint_bytecode envTwoConds).commandsFetched = true :=
  ((breakpoint_commands_iff_condition envTwoConds 0x2000 rfl
      (fun _ _ => ⟨_, rfl⟩)).1).mpr
    (Or.inr ⟨2, by decide, 7, rfl, by decide⟩)

/-- The response concatenation distributes over token-list append. -/
theorem concatAll_append (l1 l2 : List String) :
    concatAll (l1 ++ l2) = concatAll l1 ++ concatAll l2 := by
  induction l1 with
  | nil => simp [concatAll, String.empty_append]
  | cons s rest ih => simp [concatAll, ih, String.append_assoc]

/-- Every character produced by the hex loop is a hex digit character (or
came from the accumulator). -/
theorem hexStrAux_chars :
    ∀ (fuel n : Nat) (acc : List Char),
      (∀ c ∈ acc, ∃ k, k < 16 ∧ c = hexDigitChar k) →
      ∀ c ∈ hexStrAux fuel n acc, ∃ k, k < 16 ∧ c = hexDigitChar k := by
  intro fuel
  induction fuel with
  | zero => intro n acc hacc; simpa [hexStrAux] using hacc
  | succ fuel ih =>
    intro n acc hacc
    by_cases hn : n = 0
    · simpa [hexStrAux, hn] using hacc
    · simp only [hexStrAux, hn, if_false]
      refine ih (n / 16) _ ?_
      intro c hc
      rcases List.mem_cons.mp hc with rfl | hc2
      · exact ⟨n % 16, Nat.mod_lt _ (by norm_num), rfl⟩
      · exact hacc c hc2

/-- No semicolon ever appears in a `write_num` rendering. -/
theorem semicolon_not_mem_hexStr (n : Nat) : ';' ∉ (hexStr n).data := by
  have h16 : ∀ k, k < 16 → hexDigitChar k ≠ ';' := by decide
  unfold hexStr
  by_cases hn : n = 0
  · simp only [hn, if_true]
    decide
  · simp only [hn, if_false]
    intro hmem
    obtain ⟨k, hk, hck⟩ := hexStrAux_chars n n [] (by simp) ';'
      (by simpa using hmem)
    exact h16 k hk hck.symm

/-- A `write_num` rendering is never the `;swbreak+` flag. -/
theorem hexStr_ne_swbreak (n : Nat) : hexStr n ≠ ";swbreak+" := by
  intro h
  have : ';' ∈ (hexStr n).data := by rw [h]; decide
  exact semicolon_not_mem_hexStr n this

/-- A `write_num` rendering is never the `;qXfer:features:read+` flag. -/
theorem hexStr_ne_qxfer (n : Nat) : hexStr n ≠ ";qXfer:features:read+" := by
  intro h
  have : ';' ∈ (hexStr n).data := by rw [h]; decide
  exact semicolon_not_mem_hexStr n this

/-- The extended-mode section never emits `;swbreak+`. -/
theorem swbreak_not_mem_ext (em : Option ExtendedModeCaps) :
    ";swbreak+" ∉ qSupportedExtTokens em := by
  rcases em with _ | ⟨a, b, c, d⟩
  · simp [qSupportedExtTokens]
  · cases a <;> cases b <;> cases c <;> cases d <;> decide

/-- The extended-mode section never emits `;qXfer:features:read+`. -/
theorem qxfer_not_mem_ext (em : Option ExtendedModeCaps) :
    ";qXfer:features:read+" ∉ qSupportedExtTokens em := by
  rcases em with _ | ⟨a, b, c, d⟩
  · simp [qSupportedExtTokens]
  · cases a <;> cases b <;> cases c <;> cases d <;> decide

/-- The agent flag is never `;swbreak+`. -/
theorem swbreak_not_mem_agent (b : Bool) :
    ";swbreak+" ∉ (if b then [";QAgent+"] else []) := by
  cases b <;> decide

/-- The agent flag is never `;qXfer:features:read+`. -/
theorem qxfer_not_mem_agent (b : Bool) :
    ";qXfer:features:read+" ∉ (if b then [";QAgent+"] else []) := by
  cases b <;> decide

/-- The breakpoints section emits `;swbreak+` exactly when the
software-breakpoint sub-capability is present. -/
theorem swbreak_mem_bp_iff (bps : Option BreakpointsCaps) :
    (";swbreak+" ∈ qSupportedBpTokens bps)
      ↔ (bps.map (fun bp => bp.sw)).getD false = true := by
  rcases bps with _ | ⟨s, h, w, g⟩
  · simp [qSupportedBpTokens]
  · cases s <;> cases h <;> cases w <;> cases g <;> decide

/-- The breakpoints section never emits `;qXfer:features:read+`. -/
theorem qxfer_not_mem_bp (bps : Option BreakpointsCaps) :
    ";qXfer:features:read+" ∉ qSupportedBpTokens bps := by
  rcases bps with _ | ⟨s, h, w, g⟩
  · simp [qSupportedBpTokens]
  · cases s <;> cases h <;> cases w <;> cases g <;> decide

/-- The features-XML flag is never `;swbreak+`. -/
theorem swbreak_not_mem_xml (b : Bool) :
    ";swbreak+" ∉ (if b then [";qXfer:features:read+"] else []) := by
  cases b <;> decide

/-- The features-XML flag appears exactly when the architecture provides
target-description XML. -/
theorem qxfer_mem_xml_iff (b : Bool) :
    (";qXfer:features:read+" ∈ (if b then [";qXfer:features:read+"] else []))
      ↔ b = true := by
  cases b <;> decide

set_option maxRecDepth 4096 in
/-- C7 counterexample: with `write_num` rendering hex (spec section 4.3),
a 1024-byte packet buffer is advertised as `PacketSize=400`, so the
response for a software-breakpoint, features-XML target does not contain
the claimed literal `PacketSize=1024`. -/
theorem qsupported_packetsize_is_hex :
    qSupportedResponse 1024 capsSwXml
      = "PacketSize=400;vContSupported+;multiprocess+;QStartNoAckMode+;swbreak+;qXfer:features:read+"
    ∧ ¬ ("PacketSize=1024".toList <:+: (qSupportedResponse 1024 capsSwXml).toList) := by
  constructor
  · rfl
  · decide

/-- C7 amended: the `qSupported` response always begins with `PacketSize=`
followed by the packet buffer length in hex and then
`;vContSupported+;multiprocess+;QStartNoAckMode+`; it contains
`;swbreak+` iff the target exposes a software-breakpoint sub-capability
and `;qXfer:features:read+` iff the architecture provides
target-description XML; for a 1024-byte buffer with both, the response is
`PacketSize=400;vContSupported+;multiprocess+;QStartNoAckMode+;swbreak+;qXfer:features:read+`. -/
theorem qsupported_response_structure :
    (∀ (len : Nat) (t : TargetCaps), ∃ rest,
       (qSupportedResponse len t).data
         = "PacketSize=".data ++ (hexStr len).data ++ ";vContSupported+".data
             ++ ";multiprocess+".data ++ ";QStartNoAckMode+".data ++ rest) ∧
    (∀ (len : Nat) (t : TargetCaps),
       (";swbreak+" ∈ qSupportedTokens len t) ↔ hasSwCap t = true) ∧
    (∀ (len : Nat) (t : TargetCaps),
       (";qXfer:features:read+" ∈ qSupportedTokens len t) ↔ t.targetXml = true) ∧
    qSupportedResponse 1024 capsSwXml
      = "PacketSize=400;vContSupported+;multiprocess+;QStartNoAckMode+;swbreak+;qXfer:features:read+" := by
  refine ⟨?_, ?_, ?_, rfl⟩
  · intro len t
    refine ⟨(concatAll (qSupportedExtTokens t.extendedMode
        ++ (if t.agent then [";QAgent+"] else [])
        ++ qSupportedBpTokens t.breakpoints
        ++ (if t.targetXml then [";qXfer:features:read+"] else []))).data, ?_⟩
    simp [qSupportedResponse, qSupportedTokens, concatAll, concatAll_append,
      String.data_append, List.append_assoc]
  · intro len t
    obtain ⟨em, ag, bps, xml⟩ := t
    simp only [qSupportedTokens, List.append_assoc, List.cons_append,
      List.nil_append, List.mem_cons, List.mem_append, hasSwCap]
    rw [iff_iff_implies_and_implies]
    constructor
    · rintro (h | h | h | h | h | h)
      · exact absurd h (by decide)
      · exact absurd h (Ne.symm (hexStr_ne_swbreak len))
      · exact absurd h (by decide)
      · exact absurd h (by decide)
      · exact absurd h (by decide)
      · rcases h with h | h | h | h
        · exact absurd h (swbreak_not_mem_ext em)
        · exact absurd h (swbreak_not_mem_agent ag)
        · exact (swbreak_mem_bp_iff bps).mp h
        · exact absurd h (swbreak_not_mem_xml xml)
    · intro h
      refine Or.inr (Or.inr (Or.inr (Or.inr (Or.inr (Or.inr (Or.inr (Or.inl ?_)))))))
      exact (swbreak_mem_bp_iff bps).mpr h
  · intro len t
    obtain ⟨em, ag, bps, xml⟩ := t
    simp only [qSupportedTokens, List.append_assoc, List.cons_append,
      List.nil_append, List.mem_cons, List.mem_append]
    rw [iff_iff_implies_and_implies]
    constructor
    · rintro (h | h | h | h | h | h)
      · exact absurd h (by decide)
      · exact absurd h (Ne.symm (hexStr_ne_qxfer len))
      · exact absurd h (by decide)
      · exact absurd h (by decide)
      · exact absurd h (by decide)
      · rcases h with h | h | h | h
        · exact absurd h (qxfer_not_mem_ext em)
        · exact absurd h (qxfer_not_mem_agent ag)
        · exact absurd h (qxfer_not_mem_bp bps)
        · exact (qxfer_mem_xml_iff xml).mp h
    · intro h
      refine Or.inr (Or.inr (Or.inr (Or.inr (Or.inr (Or.inr (Or.inr (Or.inr ?_)))))))
      exact (qxfer_mem_xml_iff xml).mpr h

end Gdbstub
